import Mathlib

set_option linter.unusedVariables false

/-!
Shallow embedding of the greek-chess rules engine core.

Sources embedded (TypeScript):
- src/core/types.ts      : PieceType, Color, GameStatus, MoveType, Position, Move, MoveResult
- src/core/constants.ts  : BOARD_SIZE, INITIAL_BOARD_SETUP, DIRECTIONS
- src/core/Board.ts      : Board (8x8 grid of optional Piece)
- src/core/Piece.ts      : Piece
- src/core/MoveGenerator.ts : pseudo-legal move generation
- src/core/MoveValidator.ts : legality, check, castling, en passant, mate detection
- src/core/MoveHistory.ts   : history entries and undo
- src/core/GameState.ts     : orchestrator (makeMove, undoMove, status)
- src/utils/boardHelpers.ts : coordinate helpers

Conventions of the embedding:
- TypeScript thrown exceptions are modelled with Except ChessError; a thrown
  error anywhere aborts the surrounding computation, exactly as an uncaught
  exception unwinds the call.  The three throw sites of the core are the
  Position constructor, Board.setPiece and Board.movePiece.
- Mutation is modelled by explicit state passing; Board.clone is the identity
  because pieces and boards are values here (the TS clone produces an
  independent object with equal contents).
- Coordinates are Int because the TS code forms out-of-range coordinates
  (for example position.col - 1) before bounds checks.
- The Move.timestamp field (Date.now()) is omitted: it is wall-clock input
  with no influence on any rule.
-/

inductive PieceType where
  | pawn | rook | knight | bishop | queen | king
deriving DecidableEq

inductive Color where
  | white | black
deriving DecidableEq

inductive GameStatus where
  | active | check | checkmate | stalemate | draw
deriving DecidableEq

inductive MoveType where
  | normal | capture | castleKingside | castleQueenside | enPassant | promotion
deriving DecidableEq

/-- Distinct throw sites of the core (Position constructor, Board.setPiece
throw an invalid-position error; Board.movePiece throws an invalid-move or
no-piece error). -/
inductive ChessError where
  | invalidPosition | invalidMove | noPieceAtPosition
deriving DecidableEq

/-- The error component of a rejected MoveResult, one per rejection message of
GameState.makeMove. -/
inductive MoveError where
  | noPieceAtSource | wrongTurn | gameOver | illegalMove
deriving DecidableEq

inductive Side where
  | kingside | queenside
deriving DecidableEq

/-- Position from types.ts: row 0 is rank 8, row 7 is rank 1, col 0 is the
a-file.  The fields are Int because callers form out-of-range coordinates
before validation. -/
structure Pos where
  row : Int
  col : Int
deriving DecidableEq

/-- boardHelpers.isValidPosition. -/
def isValidPosition (row col : Int) : Bool :=
  decide (0 ≤ row ∧ row < 8 ∧ 0 ≤ col ∧ col < 8)

/-- The Position constructor of types.ts: throws an invalid-position error
when a coordinate is outside the 8x8 board. -/
def Position.mk? (row col : Int) : Except ChessError Pos :=
  if isValidPosition row col then Except.ok ⟨row, col⟩
  else Except.error ChessError.invalidPosition

def filesList : List Char := ['a', 'b', 'c', 'd', 'e', 'f', 'g', 'h']

def listGet? {α : Type} : List α → Nat → Option α
  | [], _ => none
  | x :: _, 0 => some x
  | _ :: xs, n + 1 => listGet? xs n

/-- Position.toAlgebraic: file letter plus rank digit (rank = 8 - row). -/
def Pos.toAlgebraic (p : Pos) : String :=
  String.singleton ((listGet? filesList p.col.toNat).getD '?') ++ toString (8 - p.row)

/-- The file letter of a position, as used by getMoveNotation via
from.toAlgebraic()[0]. -/
def Pos.fileString (p : Pos) : String :=
  String.singleton ((listGet? filesList p.col.toNat).getD '?')

/-- Piece from Piece.ts: type, color and the hasMoved flag that movePiece
sets. -/
structure Piece where
  type : PieceType
  color : Color
  hasMoved : Bool
deriving DecidableEq

/-- Board from Board.ts: an 8x8 grid stored row-major as lists, a square being
an optional Piece. -/
structure Board where
  squares : List (List (Option Piece))
deriving DecidableEq

def setNth {α : Type} : List α → Nat → α → List α
  | [], _, _ => []
  | _ :: xs, 0, v => v :: xs
  | x :: xs, n + 1, v => x :: setNth xs n v

/-- Board.getPiece: null for out-of-bounds positions, otherwise the square
content. -/
def Board.getPiece (b : Board) (p : Pos) : Option Piece :=
  if isValidPosition p.row p.col then
    (listGet? ((listGet? b.squares p.row.toNat).getD []) p.col.toNat).getD none
  else none

/-- Internal grid update used by setPiece and movePiece once coordinates have
been validated. -/
def Board.gridSet (b : Board) (p : Pos) (v : Option Piece) : Board :=
  ⟨setNth b.squares p.row.toNat
    (setNth ((listGet? b.squares p.row.toNat).getD []) p.col.toNat v)⟩

/-- Board.setPiece: throws an invalid-position error for out-of-bounds
coordinates. -/
def Board.setPiece (b : Board) (p : Pos) (v : Option Piece) : Except ChessError Board :=
  if isValidPosition p.row p.col then Except.ok (b.gridSet p v)
  else Except.error ChessError.invalidPosition

/-- Board.movePiece: validates both coordinates, requires an occupied source,
marks the moved piece's hasMoved flag, writes the destination and then clears
the source. -/
def Board.movePiece (b : Board) (src dst : Pos) : Except ChessError Board :=
  if isValidPosition src.row src.col ∧ isValidPosition dst.row dst.col then
    match b.getPiece src with
    | none => Except.error ChessError.noPieceAtPosition
    | some piece =>
      Except.ok ((b.gridSet dst (some { piece with hasMoved := true })).gridSet src none)
  else Except.error ChessError.invalidMove

def Board.isEmpty (b : Board) (p : Pos) : Bool :=
  (b.getPiece p).isNone

/-- Row-major traversal order of the 64 squares, shared by findPiece and
getPiecesOfColor. -/
def rowMajorPositions : List Pos :=
  (List.range 8).flatMap fun r => (List.range 8).map fun c => ⟨Int.ofNat r, Int.ofNat c⟩

/-- Board.findPiece: first square (row-major) holding a piece of the given
type and color. -/
def Board.findPiece (b : Board) (t : PieceType) (c : Color) : Option Pos :=
  rowMajorPositions.find? fun p =>
    match b.getPiece p with
    | some piece => decide (piece.type = t) && decide (piece.color = c)
    | none => false

/-- Board.getPiecesOfColor, row-major. -/
def Board.getPiecesOfColor (b : Board) (c : Color) : List (Piece × Pos) :=
  rowMajorPositions.filterMap fun p =>
    match b.getPiece p with
    | some piece => if piece.color = c then some (piece, p) else none
    | none => none

/-- Board.clone: deep copy; the identity on values. -/
abbrev Board.clone (b : Board) : Board := b

/-- Board.createEmptyBoard / Board.clear result: an 8x8 grid of nulls. -/
def createEmptyBoard : Board :=
  ⟨List.replicate 8 (List.replicate 8 (none : Option Piece))⟩

/-- Shape invariant every Board produced by the TS constructor satisfies:
eight rows of eight squares. -/
def Board.wellFormed (b : Board) : Prop :=
  b.squares.length = 8 ∧ ∀ row ∈ b.squares, row.length = 8

instance (b : Board) : Decidable b.wellFormed := by
  unfold Board.wellFormed; infer_instance

/-- INITIAL_BOARD_SETUP from constants.ts. -/
def initialSetup : List (PieceType × Color × Int × Int) :=
  [ (PieceType.rook, Color.black, 0, 0), (PieceType.knight, Color.black, 0, 1),
    (PieceType.bishop, Color.black, 0, 2), (PieceType.queen, Color.black, 0, 3),
    (PieceType.king, Color.black, 0, 4), (PieceType.bishop, Color.black, 0, 5),
    (PieceType.knight, Color.black, 0, 6), (PieceType.rook, Color.black, 0, 7),
    (PieceType.pawn, Color.black, 1, 0), (PieceType.pawn, Color.black, 1, 1),
    (PieceType.pawn, Color.black, 1, 2), (PieceType.pawn, Color.black, 1, 3),
    (PieceType.pawn, Color.black, 1, 4), (PieceType.pawn, Color.black, 1, 5),
    (PieceType.pawn, Color.black, 1, 6), (PieceType.pawn, Color.black, 1, 7),
    (PieceType.pawn, Color.white, 6, 0), (PieceType.pawn, Color.white, 6, 1),
    (PieceType.pawn, Color.white, 6, 2), (PieceType.pawn, Color.white, 6, 3),
    (PieceType.pawn, Color.white, 6, 4), (PieceType.pawn, Color.white, 6, 5),
    (PieceType.pawn, Color.white, 6, 6), (PieceType.pawn, Color.white, 6, 7),
    (PieceType.rook, Color.white, 7, 0), (PieceType.knight, Color.white, 7, 1),
    (PieceType.bishop, Color.white, 7, 2), (PieceType.queen, Color.white, 7, 3),
    (PieceType.king, Color.white, 7, 4), (PieceType.bishop, Color.white, 7, 5),
    (PieceType.knight, Color.white, 7, 6), (PieceType.rook, Color.white, 7, 7) ]

/-- Board constructed without arguments: empty grid populated with the
standard starting layout (every setup coordinate is in bounds, so the
setPiece calls of setupInitialPosition cannot throw and are gridSet). -/
def initialBoard : Board :=
  initialSetup.foldl
    (fun b e => b.gridSet ⟨e.2.2.1, e.2.2.2⟩ (some ⟨e.1, e.2.1, false⟩))
    createEmptyBoard

/-- boardHelpers.getOppositeColor. -/
def getOppositeColor : Color → Color
  | Color.white => Color.black
  | Color.black => Color.white

/-- boardHelpers.getPawnDirection: white moves toward decreasing row. -/
def getPawnDirection : Color → Int
  | Color.white => -1
  | Color.black => 1

/-- boardHelpers.getPawnStartRow. -/
def getPawnStartRow : Color → Int
  | Color.white => 6
  | Color.black => 1

/-- boardHelpers.getPawnPromotionRow. -/
def getPawnPromotionRow : Color → Int
  | Color.white => 0
  | Color.black => 7

/-- boardHelpers.getBackRank. -/
def getBackRank : Color → Int
  | Color.white => 7
  | Color.black => 0

/-- DIRECTIONS.ROOK from constants.ts. -/
def rookDirections : List (Int × Int) := [(-1, 0), (1, 0), (0, -1), (0, 1)]

/-- DIRECTIONS.BISHOP. -/
def bishopDirections : List (Int × Int) := [(-1, -1), (-1, 1), (1, -1), (1, 1)]

/-- DIRECTIONS.KNIGHT. -/
def knightDirections : List (Int × Int) :=
  [(-2, -1), (-2, 1), (-1, -2), (-1, 2), (1, -2), (1, 2), (2, -1), (2, 1)]

/-- DIRECTIONS.KING. -/
def kingDirections : List (Int × Int) :=
  [(-1, -1), (-1, 0), (-1, 1), (0, -1), (0, 1), (1, -1), (1, 0), (1, 1)]

/-- One ray of MoveGenerator.generateSlidingMoves: walk until blocked or off
the board.  The fuel bound of 8 is never reached because a ray meets at most
eight on-board squares before the validity test fails for good. -/
def MoveGenerator.slide (b : Board) (c : Color) (dr dc : Int) :
    Nat → Int → Int → List Pos
  | 0, _, _ => []
  | Nat.succ fuel, row, col =>
    if isValidPosition row col then
      match b.getPiece ⟨row, col⟩ with
      | none => ⟨row, col⟩ :: MoveGenerator.slide b c dr dc fuel (row + dr) (col + dc)
      | some target => if target.color ≠ c then [⟨row, col⟩] else []
    else []

/-- MoveGenerator.generateSlidingMoves over a direction set. -/
def MoveGenerator.generateSlidingMoves (b : Board) (p : Pos) (c : Color)
    (dirs : List (Int × Int)) : List Pos :=
  (dirs.map fun d => MoveGenerator.slide b c d.1 d.2 8 (p.row + d.1) (p.col + d.2)).flatten

/-- Shared body of generateKnightMoves and generateKingMoves: fixed offsets
filtered to on-board squares not occupied by a friendly piece. -/
def MoveGenerator.generateOffsetMoves (b : Board) (p : Pos) (c : Color)
    (offsets : List (Int × Int)) : List Pos :=
  offsets.filterMap fun d =>
    let tr := p.row + d.1
    let tc := p.col + d.2
    if isValidPosition tr tc then
      match b.getPiece ⟨tr, tc⟩ with
      | none => some ⟨tr, tc⟩
      | some target => if target.color ≠ c then some ⟨tr, tc⟩ else none
    else none

/-- MoveGenerator.generatePawnMoves.  Mirrors the TS control flow exactly:
the one-step-forward Position is constructed before any bounds check, so a
pawn standing on its promotion rank makes the constructor throw; the capture
squares are bounds-checked before construction. -/
def MoveGenerator.generatePawnMoves (b : Board) (p : Pos) (c : Color) :
    Except ChessError (List Pos) :=
  let direction := getPawnDirection c
  let startRow := getPawnStartRow c
  match Position.mk? (p.row + direction) p.col with
  | Except.error e => Except.error e
  | Except.ok forwardOne =>
    match
      (if isValidPosition forwardOne.row forwardOne.col ∧ b.isEmpty forwardOne then
        if p.row = startRow then
          match Position.mk? (p.row + direction * 2) p.col with
          | Except.error e => Except.error e
          | Except.ok forwardTwo =>
            if isValidPosition forwardTwo.row forwardTwo.col ∧ b.isEmpty forwardTwo then
              Except.ok [forwardOne, forwardTwo]
            else Except.ok [forwardOne]
        else Except.ok [forwardOne]
      else Except.ok ([] : List Pos)) with
    | Except.error e => Except.error e
    | Except.ok forwardMoves =>
      let captures := [((direction, -1) : Int × Int), (direction, 1)].filterMap fun d =>
        let targetRow := p.row + d.1
        let targetCol := p.col + d.2
        if isValidPosition targetRow targetCol then
          match b.getPiece ⟨targetRow, targetCol⟩ with
          | some target => if target.color ≠ c then some (⟨targetRow, targetCol⟩ : Pos) else none
          | none => none
        else none
      Except.ok (forwardMoves ++ captures)

/-- MoveGenerator.generateMoves, dispatching on the piece type.  The queen is
the concatenation of rook and bishop rays, in that order. -/
def MoveGenerator.generateMoves (b : Board) (p : Pos) (piece : Piece) :
    Except ChessError (List Pos) :=
  match piece.type with
  | PieceType.pawn => MoveGenerator.generatePawnMoves b p piece.color
  | PieceType.rook =>
    Except.ok (MoveGenerator.generateSlidingMoves b p piece.color rookDirections)
  | PieceType.bishop =>
    Except.ok (MoveGenerator.generateSlidingMoves b p piece.color bishopDirections)
  | PieceType.queen =>
    Except.ok (MoveGenerator.generateSlidingMoves b p piece.color rookDirections ++
      MoveGenerator.generateSlidingMoves b p piece.color bishopDirections)
  | PieceType.knight =>
    Except.ok (MoveGenerator.generateOffsetMoves b p piece.color knightDirections)
  | PieceType.king =>
    Except.ok (MoveGenerator.generateOffsetMoves b p piece.color kingDirections)

/-- MoveGenerator.canAttack: membership of the target among the generated
moves. -/
def MoveGenerator.canAttack (b : Board) (src dst : Pos) (piece : Piece) :
    Except ChessError Bool :=
  match MoveGenerator.generateMoves b src piece with
  | Except.error e => Except.error e
  | Except.ok moves => Except.ok (moves.any fun m => decide (m = dst))

/-- MoveGenerator.isPseudoLegal: same membership test. -/
def MoveGenerator.isPseudoLegal (b : Board) (src dst : Pos) (piece : Piece) :
    Except ChessError Bool :=
  match MoveGenerator.generateMoves b src piece with
  | Except.error e => Except.error e
  | Except.ok moves => Except.ok (moves.any fun m => decide (m = dst))

/-- Move record from types.ts (timestamp omitted; the algebraic field holds
the notation string). -/
structure Move where
  fromPos : Pos
  toPos : Pos
  piece : Piece
  capturedPiece : Option Piece
  moveType : MoveType
  algebraic : String
  promotionPiece : Option PieceType
deriving DecidableEq

/-- MoveHistory entry: the move paired with a snapshot of the board as it was
immediately before the move. -/
structure HistoryEntry where
  move : Move
  boardBeforeMove : Board
deriving DecidableEq

/-- MoveHistory.getLastMove over an append-ordered history list. -/
def lastMoveOf (history : List HistoryEntry) : Option Move :=
  history.getLast?.map HistoryEntry.move

/-- The early-return loop of MoveValidator.isKingInCheck over the opponent's
pieces. -/
def MoveValidator.anyAttacks (b : Board) (kingPos : Pos) :
    List (Piece × Pos) → Except ChessError Bool
  | [] => Except.ok false
  | pp :: rest =>
    match MoveGenerator.canAttack b pp.2 kingPos pp.1 with
    | Except.error e => Except.error e
    | Except.ok true => Except.ok true
    | Except.ok false => MoveValidator.anyAttacks b kingPos rest

/-- MoveValidator.isKingInCheck: false when no king of the color exists,
otherwise whether some opposing piece pseudo-legally attacks the king's
square. -/
def MoveValidator.isKingInCheck (b : Board) (c : Color) : Except ChessError Bool :=
  match b.findPiece PieceType.king c with
  | none => Except.ok false
  | some kingPos =>
    MoveValidator.anyAttacks b kingPos (b.getPiecesOfColor (getOppositeColor c))

/-- MoveValidator.isCastlingMove: king's own back-rank file-e square moving to
the g- or c-file square of the same rank. -/
def MoveValidator.isCastlingMove (src dst : Pos) (c : Color) : Bool :=
  let backRank := getBackRank c
  decide (src.row = backRank) && decide (src.col = 4) &&
    decide (dst.row = backRank) && (decide (dst.col = 6) || decide (dst.col = 2))

/-- MoveValidator.isEnPassantMove: a diagonal pawn step into an empty square
while the last move was an adjacent two-square pawn advance. -/
def MoveValidator.isEnPassantMove (b : Board) (src dst : Pos) (c : Color)
    (lastMove : Move) : Bool :=
  let direction := getPawnDirection c
  let isMovingDiagonally :=
    decide (dst.row = src.row + direction) && decide ((dst.col - src.col).natAbs = 1)
  if ¬ isMovingDiagonally ∨ ¬ b.isEmpty dst then false
  else if lastMove.piece.type ≠ PieceType.pawn then false
  else if (lastMove.toPos.row - lastMove.fromPos.row).natAbs ≠ 2 then false
  else decide (lastMove.toPos.row = src.row) && decide ((lastMove.toPos.col - src.col).natAbs = 1)

/-- The rank index a pawn must occupy to capture en passant: 3 for white,
4 for black. -/
def epCorrectRank (c : Color) : Int :=
  if c = Color.white then 3 else 4

/-- MoveValidator.canEnPassant: the capturing pawn sits on rank index 3
(white) or 4 (black), horizontally adjacent to the enemy pawn that just made
a two-square advance, the destination is directly behind that pawn, and
simulating the capture leaves the mover's king out of check. -/
def MoveValidator.canEnPassant (b : Board) (src dst : Pos) (c : Color)
    (lastMove : Move) : Except ChessError Bool :=
  if lastMove.piece.type ≠ PieceType.pawn then Except.ok false
  else if (lastMove.toPos.row - lastMove.fromPos.row).natAbs ≠ 2 then Except.ok false
  else if src.row ≠ epCorrectRank c then Except.ok false
  else if ¬ (lastMove.toPos.row = src.row ∧ (lastMove.toPos.col - src.col).natAbs = 1) then
    Except.ok false
  else if ¬ (dst.row = src.row + getPawnDirection c ∧ dst.col = lastMove.toPos.col) then
    Except.ok false
  else
    match (b.clone).movePiece src dst with
    | Except.error e => Except.error e
    | Except.ok b2 =>
      match b2.setPiece lastMove.toPos none with
      | Except.error e => Except.error e
      | Except.ok b3 =>
        match MoveValidator.isKingInCheck b3 c with
        | Except.error e => Except.error e
        | Except.ok inCheck => Except.ok (!inCheck)

/-- Rook home file per side, h-file for kingside and a-file for queenside. -/
def rookColOf : Side → Int
  | Side.kingside => 7
  | Side.queenside => 0

/-- Squares strictly between king and rook (canCastle emptiness test). -/
def squaresBetweenOf (backRank : Int) : Side → List Pos
  | Side.kingside => [⟨backRank, 5⟩, ⟨backRank, 6⟩]
  | Side.queenside => [⟨backRank, 1⟩, ⟨backRank, 2⟩, ⟨backRank, 3⟩]

/-- Squares the king transits while castling (canCastle safety test). -/
def squaresKingPassesOf (backRank : Int) : Side → List Pos
  | Side.kingside => [⟨backRank, 5⟩, ⟨backRank, 6⟩]
  | Side.queenside => [⟨backRank, 3⟩, ⟨backRank, 2⟩]

/-- The transit loop of canCastle: simulate relocating the piece on the
king's square to each transit square on a clone and fail if any simulation
leaves the color's king in check. -/
def MoveValidator.checkTransitSquares (b : Board) (c : Color) (kingPos : Pos) :
    List Pos → Except ChessError Bool
  | [] => Except.ok true
  | q :: rest =>
    match (b.clone).movePiece kingPos q with
    | Except.error e => Except.error e
    | Except.ok b2 =>
      match MoveValidator.isKingInCheck b2 c with
      | Except.error e => Except.error e
      | Except.ok true => Except.ok false
      | Except.ok false => MoveValidator.checkTransitSquares b c kingPos rest

/-- MoveValidator.canCastle.  Note the source checks only type and hasMoved
of the pieces found on the king and rook home squares, never their color. -/
def MoveValidator.canCastle (b : Board) (c : Color) (side : Side) :
    Except ChessError Bool :=
  let backRank := getBackRank c
  let kingPos : Pos := ⟨backRank, 4⟩
  match b.getPiece kingPos with
  | none => Except.ok false
  | some king =>
    if king.type ≠ PieceType.king ∨ king.hasMoved then Except.ok false
    else
      match b.getPiece ⟨backRank, rookColOf side⟩ with
      | none => Except.ok false
      | some rook =>
        if rook.type ≠ PieceType.rook ∨ rook.hasMoved then Except.ok false
        else if ¬ (squaresBetweenOf backRank side).all (fun q => b.isEmpty q) then
          Except.ok false
        else
          match MoveValidator.isKingInCheck b c with
          | Except.error e => Except.error e
          | Except.ok true => Except.ok false
          | Except.ok false =>
            MoveValidator.checkTransitSquares b c kingPos (squaresKingPassesOf backRank side)

/-- MoveValidator.isLegalMove: pseudo-legality plus king-safety simulation,
with the castling and en-passant fallbacks for moves that are not
pseudo-legal. -/
def MoveValidator.isLegalMove (b : Board) (src dst : Pos) (piece : Piece)
    (lastMove : Option Move) : Except ChessError Bool :=
  match MoveGenerator.isPseudoLegal b src dst piece with
  | Except.error e => Except.error e
  | Except.ok false =>
    if piece.type = PieceType.king ∧ ¬ piece.hasMoved ∧
        MoveValidator.isCastlingMove src dst piece.color then
      MoveValidator.canCastle b piece.color
        (if dst.col > src.col then Side.kingside else Side.queenside)
    else
      match lastMove with
      | some lm =>
        if piece.type = PieceType.pawn ∧ MoveValidator.isEnPassantMove b src dst piece.color lm then
          MoveValidator.canEnPassant b src dst piece.color lm
        else Except.ok false
      | none => Except.ok false
  | Except.ok true =>
    match (b.clone).movePiece src dst with
    | Except.error e => Except.error e
    | Except.ok b2 =>
      match MoveValidator.isKingInCheck b2 piece.color with
      | Except.error e => Except.error e
      | Except.ok inCheck => Except.ok (!inCheck)

/-- The filtering loop of MoveValidator.getLegalMoves over the pseudo-legal
candidates. -/
def MoveValidator.filterLegal (b : Board) (src : Pos) (piece : Piece)
    (lastMove : Option Move) : List Pos → Except ChessError (List Pos)
  | [] => Except.ok []
  | m :: rest =>
    match MoveValidator.isLegalMove b src m piece lastMove with
    | Except.error e => Except.error e
    | Except.ok true =>
      match MoveValidator.filterLegal b src piece lastMove rest with
      | Except.error e => Except.error e
      | Except.ok l => Except.ok (m :: l)
    | Except.ok false => MoveValidator.filterLegal b src piece lastMove rest

/-- The en-passant append loop at the end of MoveValidator.getLegalMoves. -/
def MoveValidator.appendEnPassant (b : Board) (src : Pos) (c : Color) (lm : Move) :
    List Pos → List Pos → Except ChessError (List Pos)
  | [], acc => Except.ok acc
  | q :: rest, acc =>
    match MoveValidator.canEnPassant b src q c lm with
    | Except.error e => Except.error e
    | Except.ok true => MoveValidator.appendEnPassant b src c lm rest (acc ++ [q])
    | Except.ok false => MoveValidator.appendEnPassant b src c lm rest acc

/-- MoveValidator.getLegalMoves: legality-filtered pseudo-legal moves, plus
castling destinations, plus en-passant destinations.  When the piece is a
pawn and a last move exists, the two candidate en-passant squares are
constructed with the throwing Position constructor before any bounds check,
which throws for a pawn on the a-file or h-file. -/
def MoveValidator.getLegalMoves (b : Board) (position : Pos) (piece : Piece)
    (lastMove : Option Move) : Except ChessError (List Pos) :=
  match MoveGenerator.generateMoves b position piece with
  | Except.error e => Except.error e
  | Except.ok pseudoLegalMoves =>
    match MoveValidator.filterLegal b position piece lastMove pseudoLegalMoves with
    | Except.error e => Except.error e
    | Except.ok legal0 =>
      match
        (if piece.type = PieceType.king ∧ ¬ piece.hasMoved then
          let backRank := getBackRank piece.color
          match MoveValidator.canCastle b piece.color Side.kingside with
          | Except.error e => Except.error e
          | Except.ok ck =>
            match MoveValidator.canCastle b piece.color Side.queenside with
            | Except.error e => Except.error e
            | Except.ok cq =>
              Except.ok ((legal0 ++ (if ck then [(⟨backRank, 6⟩ : Pos)] else [])) ++
                (if cq then [(⟨backRank, 2⟩ : Pos)] else []))
        else Except.ok legal0) with
      | Except.error e => Except.error e
      | Except.ok legal1 =>
        match lastMove with
        | some lm =>
          if piece.type = PieceType.pawn then
            let direction := getPawnDirection piece.color
            match Position.mk? (position.row + direction) (position.col - 1) with
            | Except.error e => Except.error e
            | Except.ok sq1 =>
              match Position.mk? (position.row + direction) (position.col + 1) with
              | Except.error e => Except.error e
              | Except.ok sq2 =>
                MoveValidator.appendEnPassant b position piece.color lm [sq1, sq2] legal1
          else Except.ok legal1
        | none => Except.ok legal1

/-- The early-return loop of MoveValidator.hasAnyLegalMoves. -/
def MoveValidator.anyPieceHasMoves (b : Board) (lastMove : Option Move) :
    List (Piece × Pos) → Except ChessError Bool
  | [] => Except.ok false
  | pp :: rest =>
    match MoveValidator.getLegalMoves b pp.2 pp.1 lastMove with
    | Except.error e => Except.error e
    | Except.ok l => if l.length > 0 then Except.ok true else
        MoveValidator.anyPieceHasMoves b lastMove rest

/-- MoveValidator.hasAnyLegalMoves. -/
def MoveValidator.hasAnyLegalMoves (b : Board) (c : Color) (lastMove : Option Move) :
    Except ChessError Bool :=
  MoveValidator.anyPieceHasMoves b lastMove (b.getPiecesOfColor c)

/-- MoveValidator.isCheckmate: in check and no legal moves; the JS conjunction
short-circuits, so move enumeration runs only when in check. -/
def MoveValidator.isCheckmate (b : Board) (c : Color) (lastMove : Option Move) :
    Except ChessError Bool :=
  match MoveValidator.isKingInCheck b c with
  | Except.error e => Except.error e
  | Except.ok false => Except.ok false
  | Except.ok true =>
    match MoveValidator.hasAnyLegalMoves b c lastMove with
    | Except.error e => Except.error e
    | Except.ok hasMoves => Except.ok (!hasMoves)

/-- MoveValidator.isStalemate: not in check and no legal moves. -/
def MoveValidator.isStalemate (b : Board) (c : Color) (lastMove : Option Move) :
    Except ChessError Bool :=
  match MoveValidator.isKingInCheck b c with
  | Except.error e => Except.error e
  | Except.ok true => Except.ok false
  | Except.ok false =>
    match MoveValidator.hasAnyLegalMoves b c lastMove with
    | Except.error e => Except.error e
    | Except.ok hasMoves => Except.ok (!hasMoves)

/-- Result record of GameState.makeMove. -/
structure MoveResult where
  success : Bool
  move : Option Move
  error : Option MoveError
  newStatus : Option GameStatus
  capturedPiece : Option Piece
deriving DecidableEq

/-- Game state owned by GameState.ts: live board, side to move, derived
status and the move history. -/
structure GameState where
  board : Board
  currentTurn : Color
  status : GameStatus
  history : List HistoryEntry
deriving DecidableEq

/-- Piece letter prefix of the notation (empty for pawns). -/
def pieceLetter : PieceType → String
  | PieceType.king => "K"
  | PieceType.queen => "Q"
  | PieceType.rook => "R"
  | PieceType.bishop => "B"
  | PieceType.knight => "N"
  | PieceType.pawn => ""

/-- GameState.getMoveNotation from GameState.ts: castling short-circuits to
O-O or O-O-O; otherwise piece letter (none for pawns), the originating file
only for pawn moves with a capturedPiece, an x for any capturedPiece or an
en-passant move type, the destination square, and an =Q suffix for
promotions. -/
def GameState.getMoveString (src dst : Pos) (piece : Piece) (mt : MoveType)
    (capturedPiece : Option Piece) : String :=
  if mt = MoveType.castleKingside then "O-O"
  else if mt = MoveType.castleQueenside then "O-O-O"
  else
    let n1 : String := if piece.type ≠ PieceType.pawn then "" ++ pieceLetter piece.type else ""
    let n2 := if piece.type = PieceType.pawn ∧ capturedPiece.isSome then
      n1 ++ src.fileString else n1
    let n3 := if capturedPiece.isSome ∨ mt = MoveType.enPassant then n2 ++ "x" else n2
    let n4 := n3 ++ dst.toAlgebraic
    if mt = MoveType.promotion then n4 ++ "=Q" else n4

/-- GameState.executeCastling: relocate the king, then the rook from its home
file to the file beside the king. -/
def GameState.executeCastling (b : Board) (kingFrom kingTo : Pos) (c : Color) :
    Except ChessError Board :=
  let backRank := getBackRank c
  let isKingside := kingTo.col > kingFrom.col
  match b.movePiece kingFrom kingTo with
  | Except.error e => Except.error e
  | Except.ok b2 =>
    b2.movePiece ⟨backRank, if isKingside then 7 else 0⟩
      ⟨backRank, if isKingside then 5 else 3⟩

/-- GameState.executeEnPassant: relocate the pawn, then clear the square the
last move landed on (same rank as the capturer's origin, not the capture
destination). -/
def GameState.executeEnPassant (b : Board) (src dst : Pos) (lastMove : Move) :
    Except ChessError Board :=
  match b.movePiece src dst with
  | Except.error e => Except.error e
  | Except.ok b2 => b2.setPiece lastMove.toPos none

/-- GameState.executePromotion: replace the pawn with a queen (the promoteTo
parameter is never supplied by any caller, so the default applies); a silent
no-op when the source is empty. -/
def GameState.executePromotion (b : Board) (src dst : Pos) : Except ChessError Board :=
  match b.getPiece src with
  | none => Except.ok b
  | some piece =>
    match b.setPiece src none with
    | Except.error e => Except.error e
    | Except.ok b2 => b2.setPiece dst (some ⟨PieceType.queen, piece.color, true⟩)

/-- The promotion-or-plain tail of the makeMove classification chain. -/
def GameState.executeStandard (b : Board) (src dst : Pos) (piece : Piece)
    (capturedPiece : Option Piece) : Except ChessError (MoveType × Board × Piece) :=
  if piece.type = PieceType.pawn ∧ dst.row = getPawnPromotionRow piece.color then
    match GameState.executePromotion b src dst with
    | Except.error e => Except.error e
    | Except.ok nb => Except.ok (MoveType.promotion, nb, piece)
  else
    match b.movePiece src dst with
    | Except.error e => Except.error e
    | Except.ok nb =>
      Except.ok ((if capturedPiece.isSome then MoveType.capture else MoveType.normal), nb,
        { piece with hasMoved := true })

/-- The special-move classification and board mutation of GameState.makeMove.
The third component is the value the mutable piece binding holds when the
move record is built: movePiece sets its hasMoved flag in place on every path
that relocates it, while the promotion path replaces the pawn without
touching it. -/
def GameState.classifyAndExecute (b : Board) (src dst : Pos) (piece : Piece)
    (capturedPiece : Option Piece) (lastMove : Option Move) :
    Except ChessError (MoveType × Board × Piece) :=
  if piece.type = PieceType.king ∧ (dst.col - src.col).natAbs = 2 then
    match GameState.executeCastling b src dst piece.color with
    | Except.error e => Except.error e
    | Except.ok nb =>
      Except.ok ((if dst.col > src.col then MoveType.castleKingside else MoveType.castleQueenside),
        nb, { piece with hasMoved := true })
  else if piece.type = PieceType.pawn ∧ dst.col ≠ src.col ∧ capturedPiece = none then
    match lastMove with
    | some lm =>
      match GameState.executeEnPassant b src dst lm with
      | Except.error e => Except.error e
      | Except.ok nb => Except.ok (MoveType.enPassant, nb, { piece with hasMoved := true })
    | none => GameState.executeStandard b src dst piece capturedPiece
  else GameState.executeStandard b src dst piece capturedPiece

/-- GameState.updateStatus: checkmate first, then stalemate, then check, else
active; evaluated for the side to move against the last history move. -/
def GameState.updateStatus (b : Board) (turn : Color) (lastMove : Option Move) :
    Except ChessError GameStatus :=
  match MoveValidator.isCheckmate b turn lastMove with
  | Except.error e => Except.error e
  | Except.ok true => Except.ok GameStatus.checkmate
  | Except.ok false =>
    match MoveValidator.isStalemate b turn lastMove with
    | Except.error e => Except.error e
    | Except.ok true => Except.ok GameStatus.stalemate
    | Except.ok false =>
      match MoveValidator.isKingInCheck b turn with
      | Except.error e => Except.error e
      | Except.ok true => Except.ok GameStatus.check
      | Except.ok false => Except.ok GameStatus.active

/-- A failed MoveResult carries only the error. -/
def failResult (e : MoveError) : MoveResult :=
  { success := false, move := none, error := some e, newStatus := none, capturedPiece := none }

/-- GameState.makeMove.  Rejections, in source order: empty source, wrong
turn, game already over, illegal move; each returns with the state untouched.
On success: snapshot the board, classify and execute the move, record it,
flip the turn and recompute the status. -/
def GameState.makeMove (s : GameState) (src dst : Pos) :
    Except ChessError (MoveResult × GameState) :=
  match s.board.getPiece src with
  | none => Except.ok (failResult MoveError.noPieceAtSource, s)
  | some piece =>
    if piece.color ≠ s.currentTurn then Except.ok (failResult MoveError.wrongTurn, s)
    else if s.status = GameStatus.checkmate ∨ s.status = GameStatus.stalemate then
      Except.ok (failResult MoveError.gameOver, s)
    else
      match MoveValidator.isLegalMove s.board src dst piece (lastMoveOf s.history) with
      | Except.error e => Except.error e
      | Except.ok false => Except.ok (failResult MoveError.illegalMove, s)
      | Except.ok true =>
        let boardBeforeMove := s.board.clone
        let capturedPiece := s.board.getPiece dst
        match GameState.classifyAndExecute s.board src dst piece capturedPiece
            (lastMoveOf s.history) with
        | Except.error e => Except.error e
        | Except.ok (moveType, newBoard, pieceAfter) =>
          let move : Move :=
            { fromPos := src, toPos := dst, piece := pieceAfter,
              capturedPiece := capturedPiece, moveType := moveType,
              algebraic := GameState.getMoveString src dst piece moveType capturedPiece,
              promotionPiece := none }
          let hist2 := s.history ++ [{ move := move, boardBeforeMove := boardBeforeMove }]
          let turn2 := getOppositeColor s.currentTurn
          match GameState.updateStatus newBoard turn2 (lastMoveOf hist2) with
          | Except.error e => Except.error e
          | Except.ok st =>
            Except.ok
              ({ success := true, move := some move, error := none, newStatus := some st,
                 capturedPiece := capturedPiece },
               { board := newBoard, currentTurn := turn2, status := st, history := hist2 })

/-- GameState.undoMove: false with the state untouched when the history is
empty; otherwise restore the popped entry's pre-move board snapshot, flip the
turn back and recompute the status. -/
def GameState.undoMove (s : GameState) : Except ChessError (Bool × GameState) :=
  match s.history.getLast? with
  | none => Except.ok (false, s)
  | some entry =>
    let board2 := entry.boardBeforeMove.clone
    let hist2 := s.history.dropLast
    let turn2 := getOppositeColor s.currentTurn
    match GameState.updateStatus board2 turn2 (lastMoveOf hist2) with
    | Except.error e => Except.error e
    | Except.ok st =>
      Except.ok (true, { board := board2, currentTurn := turn2, status := st, history := hist2 })

/-- GameState.getLegalMoves: empty when the square is empty or holds a piece
of the side not to move, otherwise the validator's legal destinations with
the last history move as context. -/
def GameState.getLegalMoves (s : GameState) (p : Pos) : Except ChessError (List Pos) :=
  match s.board.getPiece p with
  | none => Except.ok []
  | some piece =>
    if piece.color ≠ s.currentTurn then Except.ok []
    else MoveValidator.getLegalMoves s.board p piece (lastMoveOf s.history)

/-- The state the GameState constructor (and reset) produces. -/
def initialGameState : GameState :=
  { board := initialBoard, currentTurn := Color.white, status := GameStatus.active,
    history := [] }

/-- Game states reachable through the public command surface: the initial
state and everything a returning makeMove or undoMove call produces. -/
inductive Reachable : GameState → Prop where
  | init : Reachable initialGameState
  | step (s : GameState) (src dst : Pos) (r : MoveResult) (s2 : GameState) :
      Reachable s → GameState.makeMove s src dst = Except.ok (r, s2) → Reachable s2
  | undo (s : GameState) (b : Bool) (s2 : GameState) :
      Reachable s → GameState.undoMove s = Except.ok (b, s2) → Reachable s2

/-- Derived-status coherence: the stored status equals what updateStatus
computes from the stored board, turn and last move. -/
def statusInvariant (s : GameState) : Prop :=
  GameState.updateStatus s.board s.currentTurn (lastMoveOf s.history) = Except.ok s.status

/-- State component of an ok makeMove result, with a fallback for errors. -/
def okState (e : Except ChessError (MoveResult × GameState)) : GameState :=
  match e with
  | Except.ok x => x.2
  | Except.error _ => initialGameState

/-- Result component of an ok makeMove result, with a fallback for errors. -/
def okResult (e : Except ChessError (MoveResult × GameState)) : MoveResult :=
  match e with
  | Except.ok x => x.1
  | Except.error _ => failResult MoveError.illegalMove

/-- Whether a makeMove call returned at all and reported success. -/
def okSuccess (e : Except ChessError (MoveResult × GameState)) : Bool :=
  match e with
  | Except.ok x => x.1.success
  | Except.error _ => false

/-- True exactly on the value ok false (used to phrase the spec's simulated
relocation safety condition over the throwing check primitive). -/
def isOkFalse : Except ChessError Bool → Bool
  | Except.ok false => true
  | _ => false

/-- True exactly on the value ok true. -/
def isOkTrue : Except ChessError Bool → Bool
  | Except.ok true => true
  | _ => false

/-- Safety of one simulated king transit, phrased from the spec's words over
the engine's own primitives: relocating the piece on the king's home square
to the transit square on a clone must leave the color's king out of check
(an ok false from the throwing check primitive). -/
def kingTransitSafeB (b : Board) (c : Color) (kingPos q : Pos) : Bool :=
  isOkFalse
    (match (b.clone).movePiece kingPos q with
     | Except.error e => Except.error e
     | Except.ok b2 => MoveValidator.isKingInCheck b2 c)

/-- Castling eligibility as claim C6 words it, including the requirement that
the king and rook on the home squares belong to the castling color. -/
def canCastleSpecB (b : Board) (c : Color) (side : Side) : Bool :=
  (match b.getPiece ⟨getBackRank c, 4⟩ with
   | some k => decide (k.type = PieceType.king) && decide (k.color = c) && decide (k.hasMoved = false)
   | none => false) &&
  (match b.getPiece ⟨getBackRank c, rookColOf side⟩ with
   | some r => decide (r.type = PieceType.rook) && decide (r.color = c) && decide (r.hasMoved = false)
   | none => false) &&
  (squaresBetweenOf (getBackRank c) side).all (fun q => b.isEmpty q) &&
  isOkFalse (MoveValidator.isKingInCheck b c) &&
  (squaresKingPassesOf (getBackRank c) side).all
    (fun q => kingTransitSafeB b c ⟨getBackRank c, 4⟩ q)

/-- The amended castling condition: identical to the claim's list of
requirements except that the pieces found on the two home squares are only
required to be an unmoved king and an unmoved rook, of either color, because
the source never inspects their color. -/
def canCastleNoColorB (b : Board) (c : Color) (side : Side) : Bool :=
  (match b.getPiece ⟨getBackRank c, 4⟩ with
   | some k => decide (k.type = PieceType.king) && decide (k.hasMoved = false)
   | none => false) &&
  (match b.getPiece ⟨getBackRank c, rookColOf side⟩ with
   | some r => decide (r.type = PieceType.rook) && decide (r.hasMoved = false)
   | none => false) &&
  (squaresBetweenOf (getBackRank c) side).all (fun q => b.isEmpty q) &&
  isOkFalse (MoveValidator.isKingInCheck b c) &&
  (squaresKingPassesOf (getBackRank c) side).all
    (fun q => kingTransitSafeB b c ⟨getBackRank c, 4⟩ q)

/-- Membership condition of claim C8 for one candidate square q: the
one-step-forward square when in bounds and empty; the two-step-forward square
when the pawn stands on its starting rank with both forward squares empty;
an in-bounds forward-diagonal square occupied by an opposing piece. -/
def pawnMoveSpec (b : Board) (p : Pos) (c : Color) (q : Pos) : Prop :=
  (q = (⟨p.row + getPawnDirection c, p.col⟩ : Pos) ∧
    isValidPosition (p.row + getPawnDirection c) p.col = true ∧
    b.isEmpty ⟨p.row + getPawnDirection c, p.col⟩ = true) ∨
  (q = (⟨p.row + getPawnDirection c * 2, p.col⟩ : Pos) ∧
    p.row = getPawnStartRow c ∧
    b.isEmpty ⟨p.row + getPawnDirection c, p.col⟩ = true ∧
    b.isEmpty ⟨p.row + getPawnDirection c * 2, p.col⟩ = true) ∨
  ((q = (⟨p.row + getPawnDirection c, p.col - 1⟩ : Pos) ∨
      q = (⟨p.row + getPawnDirection c, p.col + 1⟩ : Pos)) ∧
    isValidPosition q.row q.col = true ∧
    ∃ target, b.getPiece q = some target ∧ target.color ≠ c)

/-- A white pawn value used by concrete scenarios. -/
def whitePawn : Piece := ⟨PieceType.pawn, Color.white, false⟩

/-- Board holding only an unmoved black king on e1 and an unmoved black rook
on h1 (white's home squares): exhibits that canCastle ignores piece color. -/
def castleBugBoard : Board :=
  (createEmptyBoard.gridSet ⟨7, 4⟩ (some ⟨PieceType.king, Color.black, false⟩)).gridSet ⟨7, 7⟩
    (some ⟨PieceType.rook, Color.black, false⟩)

/-- Board of the en-passant scenario: white king e1, black king e8, white
pawn e5, black pawn f5. -/
def epBoard : Board :=
  (((createEmptyBoard.gridSet ⟨7, 4⟩ (some ⟨PieceType.king, Color.white, false⟩)).gridSet
    ⟨0, 4⟩ (some ⟨PieceType.king, Color.black, false⟩)).gridSet
    ⟨3, 4⟩ (some ⟨PieceType.pawn, Color.white, true⟩)).gridSet
    ⟨3, 5⟩ (some ⟨PieceType.pawn, Color.black, true⟩)

/-- The recorded last move of the en-passant scenario: black pawn f7 to f5. -/
def epLastMove : Move :=
  { fromPos := ⟨1, 5⟩, toPos := ⟨3, 5⟩, piece := ⟨PieceType.pawn, Color.black, true⟩,
    capturedPiece := none, moveType := MoveType.normal, algebraic := "f5",
    promotionPiece := none }

/-- Game state of the en-passant scenario, white to move. -/
def epState : GameState :=
  { board := epBoard, currentTurn := Color.white, status := GameStatus.active,
    history := [{ move := epLastMove, boardBeforeMove := createEmptyBoard }] }

/-- The en-passant capture e5xf6 of the scenario. -/
def epMakeMove : Except ChessError (MoveResult × GameState) :=
  GameState.makeMove epState ⟨3, 4⟩ ⟨2, 5⟩

/-- Move 1 of the four-move mate scenario: white f2 to f3. -/
def foolsMate1 : Except ChessError (MoveResult × GameState) :=
  GameState.makeMove initialGameState ⟨6, 5⟩ ⟨5, 5⟩

/-- State after move 1. -/
def foolsState1 : GameState := okState foolsMate1

/-- Move 2: black e7 to e5. -/
def foolsMate2 : Except ChessError (MoveResult × GameState) :=
  GameState.makeMove foolsState1 ⟨1, 4⟩ ⟨3, 4⟩

/-- State after move 2. -/
def foolsState2 : GameState := okState foolsMate2

/-- Move 3: white g2 to g4. -/
def foolsMate3 : Except ChessError (MoveResult × GameState) :=
  GameState.makeMove foolsState2 ⟨6, 6⟩ ⟨4, 6⟩

/-- State after move 3. -/
def foolsState3 : GameState := okState foolsMate3

/-- Move 4: black queen d8 to h4, the mating move of the scenario. -/
def foolsMate4 : Except ChessError (MoveResult × GameState) :=
  GameState.makeMove foolsState3 ⟨0, 3⟩ ⟨4, 7⟩

/-- State after white's opening e2 to e4, used by the getLegalMoves failing
input: black to move, last move recorded. -/
def afterE4State : GameState :=
  okState (GameState.makeMove initialGameState ⟨6, 4⟩ ⟨4, 4⟩)

/-! Theorems.  First the list and board lemmas the claim proofs share. -/

theorem setNth_length {α : Type} (l : List α) (n : Nat) (v : α) :
    (setNth l n v).length = l.length := by
  induction l generalizing n with
  | nil => rfl
  | cons x xs ih =>
    cases n with
    | zero => rfl
    | succ m => simpa [setNth] using ih m

theorem listGet?_setNth_self {α : Type} (l : List α) (n : Nat) (v : α)
    (h : n < l.length) : listGet? (setNth l n v) n = some v := by
  induction l generalizing n with
  | nil => simp at h
  | cons x xs ih =>
    cases n with
    | zero => rfl
    | succ m =>
      simp only [setNth, listGet?]
      exact ih m (by simpa using h)

theorem listGet?_setNth_ne {α : Type} (l : List α) (n m : Nat) (v : α)
    (h : m ≠ n) : listGet? (setNth l n v) m = listGet? l m := by
  induction l generalizing n m with
  | nil => rfl
  | cons x xs ih =>
    cases n with
    | zero =>
      cases m with
      | zero => exact absurd rfl h
      | succ k => rfl
    | succ n2 =>
      cases m with
      | zero => rfl
      | succ k =>
        simp only [setNth, listGet?]
        exact ih n2 k (fun hk => h (by omega))

theorem mem_setNth {α : Type} (l : List α) (n : Nat) (v x : α)
    (h : x ∈ setNth l n v) : x ∈ l ∨ x = v := by
  induction l generalizing n with
  | nil => simp [setNth] at h
  | cons y ys ih =>
    cases n with
    | zero =>
      rcases List.mem_cons.mp h with h1 | h1
      · exact Or.inr h1
      · exact Or.inl (List.mem_cons_of_mem _ h1)
    | succ m =>
      rcases List.mem_cons.mp h with h1 | h1
      · exact Or.inl (h1 ▸ List.mem_cons_self _ _)
      · rcases ih m h1 with h2 | h2
        · exact Or.inl (List.mem_cons_of_mem _ h2)
        · exact Or.inr h2

theorem listGet?_mem {α : Type} (l : List α) (n : Nat) (x : α)
    (h : listGet? l n = some x) : x ∈ l := by
  induction l generalizing n with
  | nil => simp [listGet?] at h
  | cons y ys ih =>
    cases n with
    | zero =>
      simp only [listGet?, Option.some.injEq] at h
      exact h ▸ List.mem_cons_self _ _
    | succ m => exact List.mem_cons_of_mem _ (ih m h)

theorem listGet?_exists_of_lt {α : Type} (l : List α) (n : Nat) (h : n < l.length) :
    ∃ x, listGet? l n = some x := by
  induction l generalizing n with
  | nil => simp at h
  | cons y ys ih =>
    cases n with
    | zero => exact ⟨y, rfl⟩
    | succ m => exact ih m (by simpa using h)

theorem Board.getPiece_some_valid {b : Board} {p : Pos} {pc : Piece}
    (h : b.getPiece p = some pc) : isValidPosition p.row p.col = true := by
  by_cases hv : isValidPosition p.row p.col = true
  · exact hv
  · rw [Board.getPiece, if_neg (by simpa using hv)] at h
    cases h

theorem listGet?_none_of_ge {α : Type} (l : List α) (n : Nat) (h : l.length ≤ n) :
    listGet? l n = none := by
  induction l generalizing n with
  | nil => rfl
  | cons y ys ih =>
    cases n with
    | zero => simp at h
    | succ m => exact ih m (by simpa using h)

theorem setNth_eq_of_ge {α : Type} (l : List α) (n : Nat) (v : α) (h : l.length ≤ n) :
    setNth l n v = l := by
  induction l generalizing n with
  | nil => rfl
  | cons y ys ih =>
    cases n with
    | zero => simp at h
    | succ m => simpa [setNth] using ih m (by simpa using h)

theorem Board.wellFormed_gridSet {b : Board} (p : Pos) (v : Option Piece)
    (hwf : b.wellFormed) : (b.gridSet p v).wellFormed := by
  obtain ⟨hlen, hrows⟩ := hwf
  constructor
  · simpa [Board.gridSet, setNth_length] using hlen
  · intro row hrow
    rcases Nat.lt_or_ge p.row.toNat b.squares.length with hlt | hge
    · simp only [Board.gridSet] at hrow
      rcases mem_setNth _ _ _ _ hrow with h1 | h1
      · exact hrows row h1
      · subst h1
        obtain ⟨r0, hr0⟩ := listGet?_exists_of_lt _ _ hlt
        rw [hr0]
        simpa [setNth_length] using hrows r0 (listGet?_mem _ _ _ hr0)
    · simp only [Board.gridSet, setNth_eq_of_ge _ _ _ hge] at hrow
      exact hrows row hrow

/-- Positions valid on the board with equal toNat coordinates are equal. -/
theorem Pos.eq_of_valid_toNat {p q : Pos}
    (hp : isValidPosition p.row p.col = true) (hq : isValidPosition q.row q.col = true)
    (hr : p.row.toNat = q.row.toNat) (hc : p.col.toNat = q.col.toNat) : p = q := by
  simp only [isValidPosition, decide_eq_true_eq] at hp hq
  obtain ⟨hp1, hp2, hp3, hp4⟩ := hp
  obtain ⟨hq1, hq2, hq3, hq4⟩ := hq
  cases p
  cases q
  simp only [Pos.mk.injEq]
  simp only at hp1 hp2 hp3 hp4 hq1 hq2 hq3 hq4 hr hc
  omega

theorem Board.getPiece_gridSet_self {b : Board} {p : Pos} (v : Option Piece)
    (hwf : b.wellFormed) (hp : isValidPosition p.row p.col = true) :
    (b.gridSet p v).getPiece p = v := by
  obtain ⟨hlen, hrows⟩ := hwf
  have hrowlt : p.row.toNat < b.squares.length := by
    simp only [isValidPosition, decide_eq_true_eq] at hp
    omega
  obtain ⟨r0, hr0⟩ := listGet?_exists_of_lt _ _ hrowlt
  have hcollt : p.col.toNat < r0.length := by
    have := hrows r0 (listGet?_mem _ _ _ hr0)
    simp only [isValidPosition, decide_eq_true_eq] at hp
    omega
  rw [Board.getPiece, if_pos hp, Board.gridSet]
  simp only [listGet?_setNth_self _ _ _ hrowlt, hr0, Option.getD_some]
  rw [listGet?_setNth_self _ _ _ hcollt]
  rfl

theorem Board.gridSet_eq_of_row_ge {b : Board} {p : Pos} (v : Option Piece)
    (hge : b.squares.length ≤ p.row.toNat) : b.gridSet p v = b := by
  show Board.mk _ = b
  rw [setNth_eq_of_ge _ _ _ hge]

theorem Board.getPiece_gridSet_ne {b : Board} {p q : Pos} (v : Option Piece)
    (hp : isValidPosition p.row p.col = true) (hne : q ≠ p) :
    (b.gridSet p v).getPiece q = b.getPiece q := by
  rcases Nat.lt_or_ge p.row.toNat b.squares.length with hlt | hge
  · by_cases hq : isValidPosition q.row q.col = true
    · rw [Board.getPiece, Board.getPiece, if_pos hq, if_pos hq, Board.gridSet]
      by_cases hrow : q.row.toNat = p.row.toNat
      · have hcol : q.col.toNat ≠ p.col.toNat := by
          intro hcol
          exact hne (Pos.eq_of_valid_toNat hq hp hrow hcol)
        rw [hrow, listGet?_setNth_self _ _ _ hlt]
        simp only [Option.getD_some]
        rw [listGet?_setNth_ne _ _ _ _ hcol]
      · rw [listGet?_setNth_ne _ _ _ _ hrow]
    · rw [Board.getPiece, Board.getPiece, if_neg (by simpa using hq),
        if_neg (by simpa using hq)]
  · rw [Board.gridSet_eq_of_row_ge v hge]

theorem Board.setPiece_ok_inv {b b2 : Board} {p : Pos} {v : Option Piece}
    (h : b.setPiece p v = Except.ok b2) :
    isValidPosition p.row p.col = true ∧ b2 = b.gridSet p v := by
  by_cases hv : isValidPosition p.row p.col = true
  · rw [Board.setPiece, if_pos hv] at h
    exact ⟨hv, (Except.ok.injEq _ _ ▸ h).symm⟩
  · rw [Board.setPiece, if_neg (by simpa using hv)] at h
    cases h

theorem Board.movePiece_ok_inv {b b2 : Board} {src dst : Pos}
    (h : b.movePiece src dst = Except.ok b2) :
    isValidPosition src.row src.col = true ∧ isValidPosition dst.row dst.col = true ∧
    ∃ pc, b.getPiece src = some pc ∧
      b2 = (b.gridSet dst (some { pc with hasMoved := true })).gridSet src none := by
  by_cases hv : isValidPosition src.row src.col = true ∧ isValidPosition dst.row dst.col = true
  · rw [Board.movePiece, if_pos hv] at h
    obtain ⟨hv1, hv2⟩ := hv
    refine ⟨hv1, hv2, ?_⟩
    cases hg : b.getPiece src with
    | none => rw [hg] at h; cases h
    | some pc =>
      rw [hg] at h
      exact ⟨pc, rfl, (Except.ok.injEq _ _ ▸ h).symm⟩
  · rw [Board.movePiece, if_neg hv] at h
    cases h

/-- Claim C10: Board.movePiece with identical source and destination on an
occupied square succeeds and leaves the square empty, because the
unconditional clearing of the source follows the destination write and
nothing guards against the two positions coinciding. -/
theorem movePiece_same_square_clears (b : Board) (p : Pos) (pc : Piece)
    (hwf : b.wellFormed) (hp : b.getPiece p = some pc) :
    (b.movePiece p p).map (fun b2 => b2.getPiece p) = Except.ok none := by
  have hv := Board.getPiece_some_valid hp
  rw [Board.movePiece, if_pos ⟨hv, hv⟩, hp]
  simp only [Except.map]
  rw [Board.getPiece_gridSet_self none (Board.wellFormed_gridSet _ _ hwf) hv]

/-- Witness for C10: the white e2 pawn of the initial board vanishes when
moved onto its own square. -/
theorem movePiece_same_square_clears_witness :
    (initialBoard.movePiece ⟨6, 4⟩ ⟨6, 4⟩).map
      (fun b2 => b2.getPiece ⟨6, 4⟩) = Except.ok none :=
  movePiece_same_square_clears initialBoard ⟨6, 4⟩ whitePawn (by decide) (by decide)

/-- Claim C9: isCheckmate and isStalemate never both report true for the same
board, color and last move, because the former requires the check primitive
to answer true and the latter requires it to answer false. -/
theorem checkmate_stalemate_exclusive (b : Board) (c : Color) (lm : Option Move) :
    (isOkTrue (MoveValidator.isCheckmate b c lm) &&
      isOkTrue (MoveValidator.isStalemate b c lm)) = false := by
  rw [MoveValidator.isCheckmate, MoveValidator.isStalemate]
  cases hk : MoveValidator.isKingInCheck b c with
  | error e => rfl
  | ok inCheck =>
    cases inCheck with
    | true => simp [isOkTrue]
    | false => simp [isOkTrue]

/-- Claim C3: a makeMove call that returns an unsuccessful result leaves the
game state untouched — board, turn, status and history are the ones passed
in, because every rejection returns before any mutation. -/
theorem makeMove_rejected_state_unchanged (s : GameState) (src dst : Pos) (r : MoveResult)
    (s2 : GameState) (h : GameState.makeMove s src dst = Except.ok (r, s2))
    (hfail : r.success = false) : s2 = s := by
  rw [GameState.makeMove] at h
  split at h
  · injection h with h1
    cases h1
    rfl
  · split at h
    · injection h with h1
      cases h1
      rfl
    · split at h
      · injection h with h1
        cases h1
        rfl
      · split at h
        · exact Except.noConfusion h
        · injection h with h1
          cases h1
          rfl
        · simp only [] at h
          split at h
          · exact Except.noConfusion h
          · split at h
            · exact Except.noConfusion h
            · injection h with h1
              injection h1 with hr hs
              rw [← hr] at hfail
              simp at hfail

/-- Witness for C3: the initial-position move request from the empty e4
square is rejected and returns the initial state itself. -/
theorem makeMove_rejected_state_unchanged_witness :
    okState (GameState.makeMove initialGameState ⟨4, 4⟩ ⟨3, 4⟩) = initialGameState :=
  makeMove_rejected_state_unchanged initialGameState ⟨4, 4⟩ ⟨3, 4⟩
    (okResult (GameState.makeMove initialGameState ⟨4, 4⟩ ⟨3, 4⟩))
    (okState (GameState.makeMove initialGameState ⟨4, 4⟩ ⟨3, 4⟩))
    (by rfl) (by rfl)

theorem checkTransitSquares_ok_true_iff (b : Board) (c : Color) (kp : Pos) (l : List Pos) :
    MoveValidator.checkTransitSquares b c kp l = Except.ok true ↔
      l.all (fun q => kingTransitSafeB b c kp q) = true := by
  induction l with
  | nil => simp [MoveValidator.checkTransitSquares]
  | cons q rest ih =>
    rw [MoveValidator.checkTransitSquares, List.all_cons]
    cases hm : (b.clone).movePiece kp q with
    | error e => simp [kingTransitSafeB, hm, isOkFalse]
    | ok b2 =>
      cases hk : MoveValidator.isKingInCheck b2 c with
      | error e => simp [kingTransitSafeB, hm, hk, isOkFalse]
      | ok ic =>
        cases ic with
        | true => simp [kingTransitSafeB, hm, hk, isOkFalse]
        | false => simp [kingTransitSafeB, hm, hk, isOkFalse, ih]

/-- Amended claim C6: canCastle answers ok true exactly when an unmoved king
(of either color) stands on the e-file home square of the castling color's
back rank, an unmoved rook (of either color) stands on the corresponding
home file, the squares strictly between them are empty, the castling color's
king is not currently in check, and each simulated one-step and two-step
king transit leaves that color's king out of check. -/
theorem canCastle_iff_no_color (b : Board) (c : Color) (side : Side) :
    MoveValidator.canCastle b c side = Except.ok true ↔
      canCastleNoColorB b c side = true := by
  rw [MoveValidator.canCastle]
  split
  case h_1 heq => simp [canCastleNoColorB, heq]
  case h_2 king heq =>
    split
    case isTrue hg =>
      rcases hg with hg | hg
      · simp [canCastleNoColorB, heq, hg]
      · simp [canCastleNoColorB, heq, hg]
    case isFalse hg =>
      push_neg at hg
      obtain ⟨hgt, hgm⟩ := hg
      simp only [ne_eq, Bool.not_eq_true] at hgm
      split
      case h_1 heq2 => simp [canCastleNoColorB, heq, heq2, hgt, hgm]
      case h_2 rook heq2 =>
        split
        case isTrue hr =>
          rcases hr with hr | hr
          · simp [canCastleNoColorB, heq, heq2, hr]
          · simp [canCastleNoColorB, heq, heq2, hr]
        case isFalse hr =>
          push_neg at hr
          obtain ⟨hrt, hrm⟩ := hr
          simp only [ne_eq, Bool.not_eq_true] at hrm
          split
          case isTrue hbet =>
            simp only [Bool.not_eq_true] at hbet
            simp [canCastleNoColorB, heq, heq2, hgt, hgm, hrt, hrm, hbet]
          case isFalse hbet =>
            rw [not_not] at hbet
            cases hk : MoveValidator.isKingInCheck b c with
            | error e =>
              simp [canCastleNoColorB, heq, heq2, hgt, hgm, hrt, hrm, hbet, hk, isOkFalse]
            | ok ic =>
              cases ic with
              | true =>
                simp [canCastleNoColorB, heq, heq2, hgt, hgm, hrt, hrm, hbet, hk, isOkFalse]
              | false =>
                simp only [canCastleNoColorB, heq, heq2, hgt, hgm, hrt, hrm, hbet, hk,
                  isOkFalse, Bool.true_and, Bool.and_true, decide_eq_true_eq,
                  decide_eq_true_iff]
                rw [checkTransitSquares_ok_true_iff]
                simp [hbet]

/-- Counterexample to claim C6 as stated: on a board whose only pieces are an
unmoved black king on e1 and an unmoved black rook on h1, canCastle for
white kingside answers ok true although the claim's conditions (which require
the king and rook to be white's) do not hold. -/
theorem canCastle_ignores_color_counterexample :
    MoveValidator.canCastle castleBugBoard Color.white Side.kingside = Except.ok true ∧
    canCastleSpecB castleBugBoard Color.white Side.kingside = false := by
  exact ⟨rfl, rfl⟩

theorem getOppositeColor_involutive (c : Color) :
    getOppositeColor (getOppositeColor c) = c := by
  cases c <;> rfl

theorem makeMove_ok_success_shape (s : GameState) (src dst : Pos) (r : MoveResult)
    (s2 : GameState) (h : GameState.makeMove s src dst = Except.ok (r, s2))
    (hs : r.success = true) :
    ∃ mv, s2.currentTurn = getOppositeColor s.currentTurn ∧
      s2.history = s.history ++ [{ move := mv, boardBeforeMove := s.board }] ∧
      statusInvariant s2 := by
  rw [GameState.makeMove] at h
  split at h
  · injection h with h1
    cases h1
    simp [failResult] at hs
  · split at h
    · injection h with h1
      cases h1
      simp [failResult] at hs
    · split at h
      · injection h with h1
        cases h1
        simp [failResult] at hs
      · split at h
        · exact Except.noConfusion h
        · injection h with h1
          cases h1
          simp [failResult] at hs
        · simp only [] at h
          split at h
          · exact Except.noConfusion h
          · rename_i mtnb heqc
            split at h
            · exact Except.noConfusion h
            · rename_i st heqs
              injection h with h1
              injection h1 with hr hst
              subst hst
              exact ⟨_, rfl, rfl, heqs⟩

theorem makeMove_preserves_statusInvariant (s : GameState) (src dst : Pos)
    (r : MoveResult) (s2 : GameState)
    (h : GameState.makeMove s src dst = Except.ok (r, s2))
    (hinv : statusInvariant s) : statusInvariant s2 := by
  rw [GameState.makeMove] at h
  split at h
  · injection h with h1
    cases h1
    exact hinv
  · split at h
    · injection h with h1
      cases h1
      exact hinv
    · split at h
      · injection h with h1
        cases h1
        exact hinv
      · split at h
        · exact Except.noConfusion h
        · injection h with h1
          cases h1
          exact hinv
        · simp only [] at h
          split at h
          · exact Except.noConfusion h
          · split at h
            · exact Except.noConfusion h
            · rename_i st heqs
              injection h with h1
              injection h1 with hr hst
              subst hst
              exact heqs

theorem undoMove_preserves_statusInvariant (s : GameState) (b : Bool) (s2 : GameState)
    (h : GameState.undoMove s = Except.ok (b, s2))
    (hinv : statusInvariant s) : statusInvariant s2 := by
  rw [GameState.undoMove] at h
  split at h
  · injection h with h1
    cases h1
    exact hinv
  · simp only [] at h
    split at h
    · exact Except.noConfusion h
    · rename_i st heqs
      injection h with h1
      injection h1 with hb hst
      subst hst
      exact heqs

/-- The initial state's stored status is the one updateStatus derives. -/
theorem statusInvariant_initial : statusInvariant initialGameState := by
  rw [statusInvariant]
  rfl

theorem reachable_statusInvariant {s : GameState} (h : Reachable s) : statusInvariant s := by
  induction h with
  | init => exact statusInvariant_initial
  | step s src dst r s2 hr hmk ih =>
    exact makeMove_preserves_statusInvariant s src dst r s2 hmk ih
  | undo s b s2 hr hu ih =>
    exact undoMove_preserves_statusInvariant s b s2 hu ih

/-- Claim C4: from any reachable state, a successful makeMove followed by
undoMove returns true and restores the entire previous state — turn, move
count and every square of the board, hasMoved flags included. -/
theorem makeMove_undo_roundtrip (s : GameState) (src dst : Pos) (r : MoveResult)
    (s2 : GameState) (hreach : Reachable s)
    (h : GameState.makeMove s src dst = Except.ok (r, s2)) (hs : r.success = true) :
    GameState.undoMove s2 = Except.ok (true, s) := by
  obtain ⟨mv, hturn, hhist, _⟩ := makeMove_ok_success_shape s src dst r s2 h hs
  have hinv : statusInvariant s := reachable_statusInvariant hreach
  rw [statusInvariant] at hinv
  rw [GameState.undoMove, hhist, List.getLast?_concat]
  simp only [List.dropLast_concat, Board.clone]
  rw [hturn, getOppositeColor_involutive, hinv]

/-- Witness for C4: opening e2 to e4 from the initial position and undoing it
returns true and the initial state itself. -/
theorem makeMove_undo_roundtrip_witness :
    GameState.undoMove (okState (GameState.makeMove initialGameState ⟨6, 4⟩ ⟨4, 4⟩)) =
      Except.ok (true, initialGameState) :=
  makeMove_undo_roundtrip initialGameState ⟨6, 4⟩ ⟨4, 4⟩
    (okResult (GameState.makeMove initialGameState ⟨6, 4⟩ ⟨4, 4⟩))
    (okState (GameState.makeMove initialGameState ⟨6, 4⟩ ⟨4, 4⟩))
    Reachable.init (by rfl) (by rfl)

/-- Claim C5: a successful makeMove that is a legal en-passant capture (pawn
moving diagonally into an empty square with a qualifying last move) records
move type EN_PASSANT, puts the capturing pawn on the destination square, and
empties the square the passed pawn stood on (the last move's destination). -/
theorem makeMove_en_passant (s : GameState) (src dst : Pos) (pc : Piece) (lm : Move)
    (r : MoveResult) (s2 : GameState)
    (hwf : s.board.wellFormed)
    (hp : s.board.getPiece src = some pc) (hpt : pc.type = PieceType.pawn)
    (hcol : dst.col ≠ src.col) (hemp : s.board.getPiece dst = none)
    (hlm : lastMoveOf s.history = some lm)
    (hep : MoveValidator.canEnPassant s.board src dst pc.color lm = Except.ok true)
    (h : GameState.makeMove s src dst = Except.ok (r, s2)) (hs : r.success = true) :
    (∃ mv, r.move = some mv ∧ mv.moveType = MoveType.enPassant) ∧
    s2.board.getPiece dst = some { pc with hasMoved := true } ∧
    s2.board.getPiece lm.toPos = none := by
  -- Geometry and validity facts from the en-passant eligibility test.
  rw [MoveValidator.canEnPassant] at hep
  split at hep
  · injection hep with hb
    exact Bool.noConfusion hb
  · split at hep
    · injection hep with hb
      exact Bool.noConfusion hb
    · split at hep
      · injection hep with hb
        exact Bool.noConfusion hb
      · split at hep
        · injection hep with hb
          exact Bool.noConfusion hb
        · split at hep
          · injection hep with hb
            exact Bool.noConfusion hb
          · rename_i hg1 hg2 hg3 hg4 hg5
            rw [not_not] at hg4 hg5
            obtain ⟨hgrow, hgcol⟩ := hg4
            obtain ⟨hdrow, hdcol⟩ := hg5
            split at hep
            · exact Except.noConfusion hep
            · rename_i bsim hsim
              split at hep
              · exact Except.noConfusion hep
              · rename_i bsim2 hsim2
                have hvlmto : isValidPosition lm.toPos.row lm.toPos.col = true :=
                  (Board.setPiece_ok_inv hsim2).1
                have hdne : dst.row ≠ src.row := by
                  rw [hdrow]
                  cases pc.color <;> simp [getPawnDirection]
                have hdst_ne_lmto : dst ≠ lm.toPos := by
                  intro he
                  rw [he, hgrow] at hdne
                  exact hdne rfl
                have hdst_ne_src : dst ≠ src := by
                  intro he
                  rw [he] at hdne
                  exact hdne rfl
                clear hep hsim hsim2
                -- Invert the successful makeMove into its en-passant execution.
                rw [GameState.makeMove] at h
                split at h
                · rename_i heq0
                  rw [hp] at heq0
                  cases heq0
                · rename_i piece0 heq0
                  rw [hp] at heq0
                  injection heq0 with heq0
                  subst heq0
                  split at h
                  · injection h with h1
                    cases h1
                    simp [failResult] at hs
                  · split at h
                    · injection h with h1
                      cases h1
                      simp [failResult] at hs
                    · split at h
                      · exact Except.noConfusion h
                      · injection h with h1
                        cases h1
                        simp [failResult] at hs
                      · simp only [] at h
                        rw [GameState.classifyAndExecute.eq_def, if_neg (by simp [hpt]), hemp,
                          if_pos ⟨hpt, hcol, rfl⟩, hlm] at h
                        simp only [] at h
                        split at h
                        · exact Except.noConfusion h
                        · rename_i mt nb pa hB
                          split at hB
                          · exact Except.noConfusion hB
                          · rename_i nb2 hEP
                            injection hB with hB1
                            injection hB1 with hmt hB2
                            injection hB2 with hnbEq hpa
                            subst hmt
                            subst hnbEq
                            subst hpa
                            rw [GameState.executeEnPassant.eq_def] at hEP
                            split at hEP
                            · exact Except.noConfusion hEP
                            · rename_i b2 hmv
                              obtain ⟨hvsrc, hvdst, pc2, hpc2, hb2⟩ := Board.movePiece_ok_inv hmv
                              rw [hp] at hpc2
                              injection hpc2 with hpc2
                              subst hpc2
                              obtain ⟨_, hnbv⟩ := Board.setPiece_ok_inv hEP
                              split at h
                              · exact Except.noConfusion h
                              · rename_i st heqs
                                injection h with h1
                                injection h1 with hr hst
                                subst hst
                                refine ⟨⟨_, by rw [← hr], rfl⟩, ?_, ?_⟩
                                · simp only [hnbv, hb2]
                                  rw [Board.getPiece_gridSet_ne _ hvlmto hdst_ne_lmto,
                                    Board.getPiece_gridSet_ne _ hvsrc hdst_ne_src]
                                  exact Board.getPiece_gridSet_self _ hwf hvdst
                                · simp only [hnbv, hb2]
                                  exact Board.getPiece_gridSet_self _
                                    (Board.wellFormed_gridSet _ _
                                      (Board.wellFormed_gridSet _ _ hwf)) hvlmto

/-- Witness for C5: in the e5/f5 scenario the capture e5 to f6 records
EN_PASSANT, puts the white pawn on f6 and empties f5. -/
theorem makeMove_en_passant_witness :
    (∃ mv, (okResult epMakeMove).move = some mv ∧ mv.moveType = MoveType.enPassant) ∧
    (okState epMakeMove).board.getPiece ⟨2, 5⟩ =
      some ⟨PieceType.pawn, Color.white, true⟩ ∧
    (okState epMakeMove).board.getPiece ⟨3, 5⟩ = none :=
  makeMove_en_passant epState ⟨3, 4⟩ ⟨2, 5⟩ ⟨PieceType.pawn, Color.white, true⟩ epLastMove
    (okResult epMakeMove) (okState epMakeMove)
    (by decide) (by rfl) rfl (by decide) (by rfl) (by rfl) (by rfl) (by rfl) (by rfl)

/-- Amended claim C7: for a pawn move that is not castling, a capture with a
piece on the destination is written as originating file, x, destination (and
the =Q suffix when the capture promotes); an en-passant capture has no
captured piece on the destination and is written as x followed by the
destination, without the originating file letter. -/
theorem pawn_capture_algebraic (src dst : Pos) (piece : Piece) (mt : MoveType)
    (cap : Option Piece) (cp : Piece)
    (hpt : piece.type = PieceType.pawn)
    (hk : mt ≠ MoveType.castleKingside) (hq : mt ≠ MoveType.castleQueenside) :
    (cap = some cp →
      GameState.getMoveString src dst piece mt cap =
        src.fileString ++ "x" ++ dst.toAlgebraic ++
          (if mt = MoveType.promotion then "=Q" else "")) ∧
    (cap = none → mt = MoveType.enPassant →
      GameState.getMoveString src dst piece mt cap = "x" ++ dst.toAlgebraic) := by
  constructor
  · intro hc
    subst hc
    by_cases hpr : mt = MoveType.promotion
    · simp [GameState.getMoveString, hk, hq, hpt, hpr]
    · simp [GameState.getMoveString, hk, hq, hpt, hpr]
  · intro hc hep
    subst hc
    subst hep
    simp [GameState.getMoveString, hpt]

/-- Counterexample to claim C7 as stated: the en-passant capture from e5 to
f6 is rendered xf6 by the source, not the claimed exf6, because the
originating-file prefix is emitted only when a captured piece sits on the
destination square and en passant has none there. -/
theorem en_passant_notation_counterexample :
    GameState.getMoveString ⟨3, 4⟩ ⟨2, 5⟩ whitePawn MoveType.enPassant none = "xf6" ∧
    ("xf6" : String) ≠ "exf6" := by
  exact ⟨rfl, by decide⟩

/-- Witness for the amended C7: exd5 for an ordinary pawn capture and xf6 for
the en-passant capture from e5. -/
theorem pawn_capture_algebraic_witness :
    GameState.getMoveString ⟨4, 4⟩ ⟨3, 3⟩ whitePawn MoveType.capture
        (some ⟨PieceType.pawn, Color.black, true⟩) = "exd5" ∧
    GameState.getMoveString ⟨3, 4⟩ ⟨2, 5⟩ whitePawn MoveType.enPassant none = "xf6" :=
  ⟨((pawn_capture_algebraic ⟨4, 4⟩ ⟨3, 3⟩ whitePawn MoveType.capture
      (some ⟨PieceType.pawn, Color.black, true⟩) ⟨PieceType.pawn, Color.black, true⟩
      rfl (by decide) (by decide)).1 rfl).trans (by rfl),
   ((pawn_capture_algebraic ⟨3, 4⟩ ⟨2, 5⟩ whitePawn MoveType.enPassant
      none whitePawn rfl (by decide) (by decide)).2 rfl rfl).trans (by rfl)⟩

theorem filterMap_pair {α β : Type} (f : α → Option β) (a b : α) :
    List.filterMap f [a, b] = (f a).toList ++ (f b).toList := by
  cases ha : f a <;> cases hb : f b <;>
    simp [List.filterMap_cons, ha, hb]

theorem capture_filter_mem (b : Board) (c : Color) (r col : Int) (q : Pos) :
    (q ∈ (if isValidPosition r col then
        match b.getPiece ⟨r, col⟩ with
        | some target => if target.color ≠ c then some (⟨r, col⟩ : Pos) else none
        | none => none
      else none).toList) ↔
    (q = (⟨r, col⟩ : Pos) ∧ isValidPosition q.row q.col = true ∧
      ∃ target, b.getPiece q = some target ∧ target.color ≠ c) := by
  by_cases hval : isValidPosition r col = true
  · rw [if_pos hval]
    cases hg : b.getPiece ⟨r, col⟩ with
    | none =>
      simp only [Option.toList_none, List.not_mem_nil, false_iff]
      rintro ⟨rfl, _, t, hgt, _⟩
      rw [hg] at hgt
      cases hgt
    | some t =>
      simp only []
      by_cases hcl : t.color ≠ c
      · rw [if_pos hcl]
        simp only [Option.toList_some, List.mem_singleton]
        constructor
        · rintro rfl
          exact ⟨rfl, hval, t, hg, hcl⟩
        · rintro ⟨rfl, _, _⟩
          rfl
      · rw [if_neg hcl]
        simp only [Option.toList_none, List.not_mem_nil, false_iff]
        rintro ⟨rfl, _, t2, hgt, hc2⟩
        rw [hg] at hgt
        injection hgt with hgt
        subst hgt
        exact hcl hc2
  · rw [if_neg hval]
    simp only [Option.toList_none, List.not_mem_nil, false_iff]
    rintro ⟨rfl, hval2, _⟩
    exact hval hval2

set_option maxHeartbeats 1600000 in
/-- Amended claim C8: for every board and every pawn on a valid square that
is not its promotion rank, generateMoves returns a list containing exactly
the squares claim C8 describes: the empty one-step-forward square, the
two-step advance from the starting rank through empty squares, and in-bounds
forward diagonals holding an opposing piece; en passant never appears.  (On
the promotion rank the forward-square Position construction throws instead
of returning.) -/
theorem generateMoves_pawn_spec (b : Board) (p : Pos) (piece : Piece) (q : Pos)
    (hpt : piece.type = PieceType.pawn)
    (hv : isValidPosition p.row p.col = true)
    (hnp : p.row ≠ getPawnPromotionRow piece.color) :
    ∃ l, MoveGenerator.generateMoves b p piece = Except.ok l ∧
      (q ∈ l ↔ pawnMoveSpec b p piece.color q) := by
  have h1 : isValidPosition (p.row + getPawnDirection piece.color) p.col = true := by
    rcases hcc : piece.color <;>
      simp only [hcc, getPawnDirection, getPawnPromotionRow] at hnp ⊢ <;>
      simp only [isValidPosition, decide_eq_true_eq] at hv ⊢ <;> omega
  have hc1 : p.col + -1 = p.col - 1 := by ring
  rw [MoveGenerator.generateMoves.eq_def, hpt]
  simp only []
  rw [MoveGenerator.generatePawnMoves.eq_def]
  simp only []
  rw [Position.mk?, if_pos h1]
  simp only []
  by_cases he1 : b.isEmpty ⟨p.row + getPawnDirection piece.color, p.col⟩ = true
  · by_cases hsr : p.row = getPawnStartRow piece.color
    · have h2 : isValidPosition (p.row + getPawnDirection piece.color * 2) p.col = true := by
        rcases hcc : piece.color <;>
          simp only [hcc, getPawnDirection, getPawnStartRow] at hsr ⊢ <;>
          simp only [isValidPosition, decide_eq_true_eq] at hv ⊢ <;> omega
      rw [if_pos ⟨h1, he1⟩, if_pos hsr, Position.mk?, if_pos h2]
      simp only []
      by_cases he2 : b.isEmpty ⟨p.row + getPawnDirection piece.color * 2, p.col⟩ = true
      · rw [if_pos ⟨h2, he2⟩]
        simp only []
        refine ⟨_, rfl, ?_⟩
        simp only [pawnMoveSpec, filterMap_pair, List.mem_append, capture_filter_mem,
          List.mem_cons, List.mem_singleton, List.not_mem_nil, hc1, or_and_right, or_false]
        simp only [h1, he1, eq_true hsr, he2, true_and, and_true, Bool.false_eq_true,
          false_and, and_false, or_false, false_or, or_assoc]
        try itauto
      · rw [if_neg (fun hand => he2 hand.2)]
        simp only []
        refine ⟨_, rfl, ?_⟩
        simp only [pawnMoveSpec, filterMap_pair, List.mem_append, capture_filter_mem,
          List.mem_cons, List.mem_singleton, List.not_mem_nil, hc1, or_and_right, or_false]
        simp only [h1, he1, eq_true hsr, he2, true_and, and_true, Bool.false_eq_true, false_and,
          and_false, or_false, false_or, or_assoc]
        try itauto
    · rw [if_pos ⟨h1, he1⟩, if_neg hsr]
      simp only []
      refine ⟨_, rfl, ?_⟩
      simp only [pawnMoveSpec, filterMap_pair, List.mem_append, capture_filter_mem,
        List.mem_cons, List.mem_singleton, List.not_mem_nil, hc1, or_and_right, or_false]
      simp only [h1, he1, hsr, true_and, and_true, Bool.false_eq_true, false_and, and_false,
        or_false, false_or, or_assoc]
      try itauto
  · rw [if_neg (fun hand => he1 hand.2)]
    simp only []
    refine ⟨_, rfl, ?_⟩
    simp only [pawnMoveSpec, filterMap_pair, List.mem_append, capture_filter_mem,
      List.mem_cons, List.mem_singleton, List.not_mem_nil, hc1, or_and_right, or_false]
    simp only [h1, he1, true_and, and_true, Bool.false_eq_true, false_and, and_false,
      or_false, false_or, or_assoc]
    try itauto

/-- Counterexample to claim C8 as stated: a white pawn on row 0 (its
promotion rank) makes generateMoves throw the invalid-position error from
the forward-square Position construction instead of returning a list. -/
theorem generateMoves_promotion_rank_throws :
    MoveGenerator.generateMoves createEmptyBoard ⟨0, 0⟩ whitePawn =
      Except.error ChessError.invalidPosition := by
  exact rfl

/-- Witness for the amended C8: the initial-position e2 pawn, checked at the
two-step destination e4. -/
theorem generateMoves_pawn_spec_witness :
    ∃ l, MoveGenerator.generateMoves initialBoard ⟨6, 4⟩ whitePawn = Except.ok l ∧
      ((⟨4, 4⟩ : Pos) ∈ l ↔ pawnMoveSpec initialBoard ⟨6, 4⟩ Color.white ⟨4, 4⟩) :=
  generateMoves_pawn_spec initialBoard ⟨6, 4⟩ whitePawn ⟨4, 4⟩ rfl (by decide) (by decide)

/-- Claim C1 (code bug): the four-move mate sequence f2f3, e7e5, g2g4, Qd8h4
does not end in a returned CHECKMATE.  The first three moves succeed, but the
fourth call throws the invalid-position error: checkmate detection walks
every white piece, and getLegalMoves for the a2 pawn constructs the
off-board en-passant candidate square at column -1.  The repository's own
GameState tests assert success and CHECKMATE here. -/
theorem foolsMate_fourth_move_throws :
    okSuccess foolsMate1 = true ∧ okSuccess foolsMate2 = true ∧
    okSuccess foolsMate3 = true ∧
    foolsMate4 = Except.error ChessError.invalidPosition := by
  exact ⟨rfl, rfl, rfl, rfl⟩

/-- Claim C2 (code bug): after white's opening e2e4, querying legal moves of
the black a7 pawn throws the invalid-position error instead of returning a
list, because the en-passant candidate construction uses column -1 before
any bounds check. -/
theorem getLegalMoves_a7_pawn_throws :
    GameState.getLegalMoves afterE4State ⟨1, 0⟩ =
      Except.error ChessError.invalidPosition := by
  exact rfl
